import Mathlib

/-!
Shallow embedding of the smartio repository (src/smartio/_main.py and
src/smartio/_errors.py), together with theorems settling the frozen claims
about its specification.

Conventions of the embedding:
* Python exceptions are values of `PyError`; a fallible operation returns
  `Except PyError A`, and a state-mutating operation returns its error
  (if any) together with the filesystem reached at the moment of the raise.
* The filesystem is an association list from path strings to files; a file
  carries its content plus the permission and openability bits consulted by
  `os.access` and `open`.
* Machine-level byte streams are modelled as `String`; the external
  compression codec implementations (pandas, gzip, bz2, ..., lz4 libraries)
  are abstracted as encode/decode functions per scheme, exactly the
  collaborator interface of the spec (section 6).
* Only path inputs (`str`/`PurePath`) of `SmartIo.write`/`SmartIo.read` are
  modelled; the buffer-input cases of the source are out of scope of all the
  claims, which quantify over paths.
-/

/-- Python exception values raised on the code paths modelled here. The
library's own exception classes (from src/smartio/_errors.py, e.g.
`readPermissionsError`, `writePermissionsError`, `unsupportedOperationError`)
are distinct constructors from the Python builtins (`valueError`, `keyError`,
`typeError`, `osPermissionError` for builtin `PermissionError`, and so on), so
theorems can distinguish which exception class a call fails with. -/
inductive PyError where
  | valueError (msg : String)
  | keyError (key : String)
  | typeError (msg : String)
  | unsupportedOperationError (msg : String)
  | readPermissionsError (msg key : String)
  | writePermissionsError (msg key : String)
  | fileNotFoundError (key : String)
  | isADirectoryError (key : String)
  | osPermissionError (key : String)
  | osFailure (msg : String)
deriving DecidableEq, Repr

/-- The compression-format enumeration, from `class CompressionFormat`
(src/smartio/_main.py lines 42-60): members gz, zip, bz2, xz, zstd, lz4,
none, in declaration order. -/
inductive CompressionFormat where
  | gz | zip | bz2 | xz | zstd | lz4 | none
deriving DecidableEq, Repr, Fintype

/-- The members in enum declaration order, as iterated by
`for c in CompressionFormat` (used by `from_suffix`). -/
def CompressionFormat.all : List CompressionFormat :=
  [.gz, .zip, .bz2, .xz, .zstd, .lz4, .none]

/-- Enum member name, the key accepted by the `CompressionFormat[...]`
lookup in `CompressionFormat.of`. -/
def CompressionFormat.name : CompressionFormat → String
  | .gz => "gz"
  | .zip => "zip"
  | .bz2 => "bz2"
  | .xz => "xz"
  | .zstd => "zstd"
  | .lz4 => "lz4"
  | .none => "none"

/-- The `full_name` property (lines 97-103): a dict overrides gz to "gzip"
and bz2 to "bzip2"; every other member falls back to its member name. -/
def CompressionFormat.full_name : CompressionFormat → String
  | .gz => "gzip"
  | .bz2 => "bzip2"
  | c => c.name

/-- The `suffix` property (lines 140-150): "" for none, ".zst" for zstd,
and "." plus the member name otherwise. -/
def CompressionFormat.suffix : CompressionFormat → String
  | .none => ""
  | .zstd => ".zst"
  | c => "." ++ c.name

/-- The `pandas_value` property (lines 126-138): the value passed to pandas
`get_handle` as `compression`. -/
def CompressionFormat.pandas_value : CompressionFormat → Option String
  | .none => Option.none
  | .gz => some "gzip"
  | .lz4 => some ""
  | c => some c.name

/-- `list_non_empty` (lines 70-76). The source builds a Python set, whose
iteration order is arbitrary; we fix declaration order. All uses below are
order-independent because distinct non-none suffixes never both match one
filename (lemma `suffix_match_unique`). -/
def CompressionFormat.list_non_empty : List CompressionFormat :=
  [.gz, .zip, .bz2, .xz, .zstd, .lz4]

/-- Python `str.strip()`: drop whitespace from both ends (the tokens
considered here are ASCII, for which Lean's `Char.isWhitespace` agrees
with Python's whitespace set). -/
def pyStrip (s : String) : String :=
  String.mk (((s.data.dropWhile Char.isWhitespace).reverse.dropWhile Char.isWhitespace).reverse)

/-- Python `str.lower()`, for ASCII tokens: lowercase each character. -/
def pyLower (s : String) : String :=
  String.mk (s.data.map Char.toLower)

/-- `CompressionFormat.of` (lines 78-95), for a string token. The source
first tries `CompressionFormat[str(t).strip().lower()]`; on `KeyError` it
scans the member set comparing the original token `t` verbatim against each
`full_name` (full names are pairwise distinct, so the set's iteration order
is immaterial), and re-raises the `KeyError` when nothing matches. -/
def CompressionFormat.of (t : String) : Except PyError CompressionFormat :=
  let key := pyLower (pyStrip t)
  match CompressionFormat.all.find? (fun f => key == f.name) with
  | some f => Except.ok f
  | Option.none =>
    match CompressionFormat.all.find? (fun f => t == f.full_name) with
    | some f => Except.ok f
    | Option.none => Except.error (PyError.keyError key)

/-- A filesystem path, as the pair of its parent directory and final
component, mirroring pathlib's `Path.parent` and `Path.name`. -/
structure SPath where
  parent : String
  name : String
deriving DecidableEq, Repr

/-- The rendering `str(path)` used as a filesystem key. -/
def SPath.str (p : SPath) : String := p.parent ++ "/" ++ p.name

/-- Python `str.rfind`: the last index of `c` in `l`, or -1. -/
def pyRfind (l : List Char) (c : Char) : Int :=
  match l.reverse.findIdx? (· == c) with
  | some r => (l.length : Int) - 1 - r
  | Option.none => -1

/-- pathlib `PurePath.suffix` on a final component: CPython computes
`i = name.rfind('.')` and returns `name[i:]` when `0 < i < len(name) - 1`,
and "" otherwise (so a lone leading dot or a trailing dot gives ""). -/
def pySuffix (name : String) : String :=
  let l := name.data
  let i := pyRfind l '.'
  if 0 < i ∧ i < (l.length : Int) - 1 then String.mk (l.drop i.toNat) else ""

/-- Python `str.split('.')` on a character list. -/
def splitOnDot : List Char → List (List Char)
  | [] => [[]]
  | c :: rest =>
    match splitOnDot rest with
    | [] => [[]]
    | h :: t => if c = '.' then [] :: h :: t else (c :: h) :: t

/-- pathlib `PurePath.suffixes` on a final component: CPython returns [] for
a name ending in '.', else strips leading dots and maps `'.' + part` over
all split parts after the first. -/
def pySuffixes (name : String) : List String :=
  match name.data.getLast? with
  | some '.' => []
  | _ =>
    let stripped := name.data.dropWhile (· == '.')
    ((splitOnDot stripped).drop 1).map (fun part => String.mk ('.' :: part))

/-- Whether a final component starts with '.', i.e. `name.startswith(".")`. -/
def startsWithDot (l : List Char) : Bool :=
  match l with
  | '.' :: _ => true
  | _ => false

/-- `CompressionFormat.from_suffix` (lines 183-191): first member (in enum
order) whose suffix equals the given string, defaulting to none. -/
def CompressionFormat.from_suffix (suffix : String) : CompressionFormat :=
  (CompressionFormat.all.find? (fun c => suffix == c.suffix)).getD CompressionFormat.none

/-- `CompressionFormat.from_path` (lines 171-181): when the whole filename
starts with '.' and contains exactly one dot, the whole filename is the
suffix; otherwise `path.suffix` is. -/
def CompressionFormat.from_path (path : SPath) : CompressionFormat :=
  let suffix :=
    if startsWithDot path.name.data && (path.name.data.count '.' == 1) then path.name
    else pySuffix path.name
  CompressionFormat.from_suffix suffix

/-- `CompressionFormat.strip_suffix` (lines 152-161): scans the non-none
members for one whose suffix ends the filename and drops that many
characters; otherwise returns the path unchanged. The source iterates a
Python set; order is immaterial since at most one non-none suffix can match
(lemma `suffix_match_unique`). -/
def CompressionFormat.strip_suffix (path : SPath) : SPath :=
  match CompressionFormat.list_non_empty.find?
      (fun c => c.suffix.data.isSuffixOf path.name.data) with
  | some c =>
    ⟨path.parent, String.mk (path.name.data.take (path.name.data.length - c.suffix.data.length))⟩
  | Option.none => path

/-- A file in the modelled filesystem: its byte content plus the bits
consulted by `os.access` and by `open` (a non-file entry stands for a
directory; `openOk` lets a file that passes `os.access` still fail at
`open`, as happens e.g. with effective-uid mismatches). -/
structure SFile where
  content : String
  isFile : Bool := true
  rOK : Bool := true
  wOK : Bool := true
  openOk : Bool := true
deriving DecidableEq, Repr

/-- The filesystem: an association list from path strings to files. -/
abbrev FS := List (String × SFile)

def fsGet (fs : FS) (k : String) : Option SFile :=
  (fs.find? (fun e => e.1 == k)).map (fun e => e.2)

def fsDel (fs : FS) (k : String) : FS :=
  fs.filter (fun e => !(e.1 == k))

def fsSet (fs : FS) (k : String) (v : SFile) : FS :=
  (k, v) :: fsDel fs k

/-- `os.replace(src, dst)`: atomically rename src onto dst. -/
def osReplace (fs : FS) (src dst : String) : FS :=
  match fsGet fs src with
  | some f => fsSet (fsDel fs src) dst f
  | Option.none => fs

def pyExists (fs : FS) (k : String) : Bool := (fsGet fs k).isSome

def isFileAt (fs : FS) (k : String) : Bool :=
  match fsGet fs k with
  | some f => f.isFile
  | Option.none => false

/-- `os.access(path, os.R_OK)`: false for a missing path. -/
def osAccessR (fs : FS) (k : String) : Bool :=
  match fsGet fs k with
  | some f => f.rOK
  | Option.none => false

/-- Whether `open(path, "r")` succeeds: the path must exist, be a regular
file, be readable, and be openable. -/
def openForReadOk (fs : FS) (k : String) : Bool :=
  match fsGet fs k with
  | some f => f.isFile && f.rOK && f.openOk
  | Option.none => false

/-- External compression codec implementations, abstracted per the spec's
collaborator contract (section 6): each scheme has an encoder to a byte
stream and a decoder that may fail on malformed data. -/
structure Codecs where
  enc : CompressionFormat → String → String
  dec : CompressionFormat → String → Option String

/-- The trivial codec family (identity), used for concrete witnesses. -/
def idCodecs : Codecs := ⟨fun _ s => s, fun _ s => some s⟩

/-- pandas `get_handle`'s interpretation of its `compression` argument:
`None` means no transformation, the known method strings select a codec,
anything else raises `ValueError("Unrecognized compression type ...")`. -/
def pandasFormatOf : Option String → Except PyError (Option CompressionFormat)
  | Option.none => Except.ok Option.none
  | some "gzip" => Except.ok (some .gz)
  | some "zip" => Except.ok (some .zip)
  | some "bz2" => Except.ok (some .bz2)
  | some "xz" => Except.ok (some .xz)
  | some "zstd" => Except.ok (some .zstd)
  | some _ => Except.error (PyError.valueError "Unrecognized compression type")

def encodeOpt (codecs : Codecs) : Option CompressionFormat → String → String
  | Option.none, s => s
  | some f, s => codecs.enc f s

def decodeOpt (codecs : Codecs) : Option CompressionFormat → String → Option String
  | Option.none, s => some s
  | some f, s => codecs.dec f s

/-- Python's `"a" in mode` substring test for the single-character "a". -/
def strContainsChar (s : String) (c : Char) : Bool := s.data.contains c

/-- Opening a handle for writing via pandas `get_handle(key, mode, ...)` and
writing `content` through it. The compression argument is validated first;
then the destination is created or truncated (or kept, in append mode); the
`ioFail` flag injects an I/O failure at the `f.handle.write(content)` step,
at which moment the opened file already exists in its truncated state. -/
def getHandleWrite (codecs : Codecs) (ioFail : Bool) (fs : FS) (key : String)
    (compression : Option String) (mode content : String) : Option PyError × FS :=
  match pandasFormatOf compression with
  | Except.error e => (some e, fs)
  | Except.ok fOpt =>
    let app := strContainsChar mode 'a'
    match fsGet fs key with
    | some file =>
      if !file.isFile then (some (PyError.isADirectoryError key), fs)
      else if !(file.wOK && file.openOk) then (some (PyError.osPermissionError key), fs)
      else
        let fs1 := fsSet fs key { file with content := if app then file.content else "" }
        if ioFail then (some (PyError.osFailure "injected write failure"), fs1)
        else
          (Option.none,
            fsSet fs key
              { file with
                content :=
                  if app then file.content ++ encodeOpt codecs fOpt content
                  else encodeOpt codecs fOpt content })
    | Option.none =>
      let fs1 := fsSet fs key { content := "" }
      if ioFail then (some (PyError.osFailure "injected write failure"), fs1)
      else (Option.none, fsSet fs key { content := encodeOpt codecs fOpt content })

/-- Reading a handle fully via pandas `get_handle(key, mode, ...)`:
validate the compression argument, open the file (missing, directory,
and permission failures in the order the OS reports them), and decode. -/
def getHandleRead (codecs : Codecs) (fs : FS) (key : String)
    (compression : Option String) : Except PyError String :=
  match pandasFormatOf compression with
  | Except.error e => Except.error e
  | Except.ok fOpt =>
    match fsGet fs key with
    | Option.none => Except.error (PyError.fileNotFoundError key)
    | some file =>
      if !file.isFile then Except.error (PyError.isADirectoryError key)
      else if !(file.rOK && file.openOk) then Except.error (PyError.osPermissionError key)
      else
        match decodeOpt codecs fOpt file.content with
        | some s => Except.ok s
        | Option.none => Except.error (PyError.osFailure "corrupt compressed data")

/-- `lz4.frame.open(str(path))` followed by `fp.read()`: open the file for
reading and return its raw content (decoding is applied by the caller). -/
def lz4FrameOpenRead (fs : FS) (key : String) : Except PyError String :=
  match fsGet fs key with
  | Option.none => Except.error (PyError.fileNotFoundError key)
  | some f =>
    if !f.isFile then Except.error (PyError.isADirectoryError key)
    else if !(f.rOK && f.openOk) then Except.error (PyError.osPermissionError key)
    else Except.ok f.content

/-- CPython `datetime.isoformat(timespec=...)`: the only accepted timespec
values are "auto", "hours", "minutes", "seconds", "milliseconds" and
"microseconds"; any other value raises `ValueError("Unknown timespec value")`
(datetime has no nanosecond precision, so "ns" is not among them). The
formatted clock reading itself is abstracted as the `now` argument. -/
def datetime_isoformat (now : String) (timespec : String) : Except PyError String :=
  if timespec ∈ ["auto", "hours", "minutes", "seconds", "milliseconds", "microseconds"]
  then Except.ok now
  else Except.error (PyError.valueError "Unknown timespec value")

/-- Python `str.replace(old, "")` for a single-character `old`: drop every
occurrence of the character. -/
def stringDeleteChar (s : String) (c : Char) : String :=
  String.mk (s.data.filter (fun d => !(d == c)))

/-- `SmartIo.tmp_path` (lines 357-362): formats
`datetime.now().isoformat(timespec="ns")`, strips ':' and '-', and builds
the hidden sibling `".__" + extra + "." + now + suffixes` in the same
parent directory. -/
def SmartIo.tmp_path (now : String) (path : SPath) (extra : String := "tmp") :
    Except PyError SPath :=
  match datetime_isoformat now "ns" with
  | Except.error e => Except.error e
  | Except.ok ts =>
    let ts := stringDeleteChar (stringDeleteChar ts ':') '-'
    let suffix := String.join (pySuffixes path.name)
    Except.ok ⟨path.parent, ".__" ++ extra ++ "." ++ ts ++ suffix⟩

/-- `SmartIo.path_or_buff_compression` (lines 349-355), for a path input:
an explicit `compression=` keyword is resolved by `CompressionFormat.of`
(possibly raising `KeyError`), otherwise the format is inferred from the
path suffix. -/
def SmartIo.path_or_buff_compression (path : SPath) (kw : Option String) :
    Except PyError CompressionFormat :=
  match kw with
  | some t => CompressionFormat.of t
  | Option.none => Except.ok (CompressionFormat.from_path path)

/-- `SmartIo.write` (lines 289-329), for a path destination. The result is
the raised exception (if any) paired with the filesystem at that moment.
`ioFail` injects an I/O failure at any `f.handle.write(content)` step;
`now` stands for the current clock reading. The branch structure mirrors
the source: resolve the compression; in the lz4 branch reject append and
then build a temporary path (the code after that `tmp_path` call, retained
here, is unreachable because `tmp_path` always raises, and would end in the
no-argument `fp.write()` `TypeError`); otherwise, in the atomic branch,
reject append, build a temporary path, write the handle and `os.replace`
(note: no cleanup of the temporary file is attempted on a failed write);
otherwise write the destination handle directly. -/
def SmartIo.write (codecs : Codecs) (ioFail : Bool) (now : String) (fs : FS)
    (path : SPath) (content : String) (mode : String) (atomic : Bool)
    (kw : Option String) : Option PyError × FS :=
  match SmartIo.path_or_buff_compression path kw with
  | Except.error e => (some e, fs)
  | Except.ok compression =>
    if compression = CompressionFormat.lz4 then
      if strContainsChar mode 'a' then
        (some (PyError.unsupportedOperationError "Can't append to lz4 (yet)"), fs)
      else
        match SmartIo.tmp_path now path "tmp" with
        | Except.error e => (some e, fs)
        | Except.ok tmp =>
          match getHandleWrite codecs ioFail fs tmp.str kw mode content with
          | (some e, fs1) => (some e, fs1)
          | (Option.none, fs1) =>
            if atomic then
              match SmartIo.tmp_path now path "tmp" with
              | Except.error e => (some e, fs1)
              | Except.ok tmp2 =>
                let fs2 := (getHandleWrite codecs false fs1 tmp2.str Option.none "w" "").2
                (some (PyError.typeError "write() missing required positional argument"), fs2)
            else
              let fs2 := (getHandleWrite codecs false fs1 path.str Option.none "w" "").2
              (some (PyError.typeError "write() missing required positional argument"), fs2)
    else
      if atomic then
        if strContainsChar mode 'a' then
          (some (PyError.unsupportedOperationError "Can't append in atomic write"), fs)
        else
          match SmartIo.tmp_path now path "tmp" with
          | Except.error e => (some e, fs)
          | Except.ok tmp =>
            match getHandleWrite codecs ioFail fs tmp.str compression.pandas_value mode content with
            | (some e, fs1) => (some e, fs1)
            | (Option.none, fs1) => (Option.none, osReplace fs1 tmp.str path.str)
      else
        getHandleWrite codecs ioFail fs path.str compression.pandas_value mode content

/-- `SmartIo.read` (lines 331-347), for a path source. In the lz4 branch the
source reads and decompresses the frame, then passes the resulting bytes to
`get_handle` as `path_or_buff`, which pandas rejects with
`ValueError("Invalid file path or buffer object type ...")`; the other
formats are read through `get_handle` with the pandas compression value. -/
def SmartIo.read (codecs : Codecs) (fs : FS) (path : SPath) (mode : String)
    (kw : Option String) : Except PyError String :=
  match SmartIo.path_or_buff_compression path kw with
  | Except.error e => Except.error e
  | Except.ok compression =>
    if compression = CompressionFormat.lz4 then
      match lz4FrameOpenRead fs path.str with
      | Except.error e => Except.error e
      | Except.ok raw =>
        match codecs.dec CompressionFormat.lz4 raw with
        | Option.none => Except.error (PyError.osFailure "corrupt compressed data")
        | some _ => Except.error (PyError.valueError "Invalid file path or buffer object type")
    else
      getHandleRead codecs fs path.str compression.pandas_value

/-- One iteration of the loop body of `SmartIo.verify_can_read_files`
(lines 204-233): not-a-file and no-read-access raise
`ReadPermissionsError`; a failing `open(path, "r")` under `attempt=True`
raises `WritePermissionsError` (the source's lines 228-233). -/
def SmartIo.verify_one_readable (fs : FS) (missing_ok attempt : Bool)
    (key : String) : Option PyError :=
  if pyExists fs key && !isFileAt fs key then
    some (PyError.readPermissionsError ("Path " ++ key ++ " is not a file") key)
  else if (!missing_ok || pyExists fs key) && !osAccessR fs key then
    some (PyError.readPermissionsError ("Cannot read from " ++ key) key)
  else if attempt && !openForReadOk fs key then
    some (PyError.writePermissionsError ("Failed to open " ++ key ++ " for read") key)
  else Option.none

/-- `SmartIo.verify_can_read_files` (lines 204-233): check each path in
order and raise the first failure. -/
def SmartIo.verify_can_read_files (fs : FS) (paths : List String)
    (missing_ok attempt : Bool) : Option PyError :=
  paths.findSome? (SmartIo.verify_one_readable fs missing_ok attempt)

/-- Whether a read result failed with the library's ReadPermissionsError. -/
def isReadPermsError : Except PyError String → Bool
  | Except.error (PyError.readPermissionsError _ _) => true
  | _ => false

/-! ## Helper lemmas -/

theorem datetime_isoformat_ns (now : String) :
    datetime_isoformat now "ns" = Except.error (PyError.valueError "Unknown timespec value") := by
  unfold datetime_isoformat
  rw [if_neg (by decide)]

theorem tmp_path_fails (now : String) (path : SPath) (extra : String) :
    SmartIo.tmp_path now path extra =
      Except.error (PyError.valueError "Unknown timespec value") := by
  unfold SmartIo.tmp_path
  rw [datetime_isoformat_ns]

theorem fsGet_fsSet (fs : FS) (k : String) (v : SFile) : fsGet (fsSet fs k v) k = some v := by
  unfold fsGet fsSet
  rw [List.find?_cons_of_pos _ (by simp)]
  rfl

theorem non_empty_ne_none :
    ∀ c ∈ CompressionFormat.list_non_empty, c ≠ CompressionFormat.none := by decide

theorem suffix_reverse_prefix_eq :
    ∀ c d : CompressionFormat, c ≠ CompressionFormat.none → d ≠ CompressionFormat.none →
      c.suffix.data.reverse <+: d.suffix.data.reverse → c = d := by decide

theorem suffix_match_unique {n : List Char} {c d : CompressionFormat}
    (hc : c ≠ CompressionFormat.none) (hd : d ≠ CompressionFormat.none)
    (h1 : c.suffix.data <:+ n) (h2 : d.suffix.data <:+ n) : c = d := by
  rcases List.suffix_or_suffix_of_suffix h1 h2 with h | h
  · exact suffix_reverse_prefix_eq c d hc hd (List.reverse_prefix.mpr h)
  · exact (suffix_reverse_prefix_eq d c hd hc (List.reverse_prefix.mpr h)).symm

theorem pandasFormatOf_pandas_value (f : CompressionFormat) (h : f ≠ CompressionFormat.lz4) :
    pandasFormatOf f.pandas_value =
      Except.ok (if f = CompressionFormat.none then Option.none else some f) := by
  cases f <;> first | rfl | exact absurd rfl h

/-! ## Claim theorems -/

/-- C3: code-bug evidence. `SmartIo.tmp_path` never returns a path: every
call raises `ValueError("Unknown timespec value")`, because the source
calls `datetime.now().isoformat(timespec="ns")` and "ns" is not an accepted
timespec value of CPython's `datetime.isoformat`. The claim that a hidden
timestamped sibling path is returned (not raised) describes the evident
intent, which the code fails on every input. -/
theorem C3_tmp_path_always_raises (now : String) (path : SPath) (extra : String) :
    SmartIo.tmp_path now path extra =
      Except.error (PyError.valueError "Unknown timespec value") :=
  tmp_path_fails now path extra

/-- C8: the suffix of `none` is the empty string, every other format has a
non-empty suffix, and distinct formats other than `none` have distinct
suffixes. -/
theorem C8_suffix_injective :
    CompressionFormat.none.suffix = "" ∧
    (∀ c : CompressionFormat, c ≠ CompressionFormat.none → c.suffix ≠ "") ∧
    (∀ c d : CompressionFormat, c ≠ CompressionFormat.none → d ≠ CompressionFormat.none →
      c ≠ d → c.suffix ≠ d.suffix) := by
  decide

/-- C8 witness: the suffix invariant applied at gz and xz. -/
theorem C8_suffix_injective_witness :
    CompressionFormat.gz.suffix ≠ "" ∧
    CompressionFormat.gz.suffix ≠ CompressionFormat.xz.suffix :=
  ⟨C8_suffix_injective.2.1 CompressionFormat.gz (by decide),
   C8_suffix_injective.2.2 CompressionFormat.gz CompressionFormat.xz
     (by decide) (by decide) (by decide)⟩

/-- C5 counterexample: contrary to the claim, none of "GZip", "g-zip" and
" gzip " resolves to the gzip scheme; each call fails with the re-raised
`KeyError` (there is no hyphen handling, and the full-name comparison uses
the original token verbatim, so it is case- and whitespace-sensitive). -/
theorem C5_of_counterexample :
    CompressionFormat.of "GZip" = Except.error (PyError.keyError "gzip") ∧
    CompressionFormat.of "g-zip" = Except.error (PyError.keyError "g-zip") ∧
    CompressionFormat.of " gzip " = Except.error (PyError.keyError "gzip") :=
  ⟨rfl, rfl, rfl⟩

/-- C5 amended: `of` resolves a token whose stripped, lowercased form equals
a canonical short member name (so short names are matched case-insensitively
and tolerate surrounding spaces), and otherwise resolves a token exactly
equal (verbatim: case-sensitively, with no hyphen or space tolerance) to a
full name; when neither matches it fails with the re-raised `KeyError`
carrying the stripped lowercased token. -/
theorem C5_of_amended :
    (∀ f : CompressionFormat, CompressionFormat.of f.name = Except.ok f) ∧
    (∀ f : CompressionFormat, CompressionFormat.of f.full_name = Except.ok f) ∧
    CompressionFormat.of " GZ " = Except.ok CompressionFormat.gz ∧
    (∀ t : String, (∀ f : CompressionFormat, pyLower (pyStrip t) ≠ f.name) →
      (∀ f : CompressionFormat, t ≠ f.full_name) →
      CompressionFormat.of t = Except.error (PyError.keyError (pyLower (pyStrip t)))) := by
  refine ⟨fun f => by cases f <;> rfl, fun f => by cases f <;> rfl, rfl, ?_⟩
  intro t h1 h2
  show (match CompressionFormat.all.find? (fun f => pyLower (pyStrip t) == f.name) with
    | some f => Except.ok f
    | Option.none =>
      match CompressionFormat.all.find? (fun f => t == f.full_name) with
      | some f => Except.ok f
      | Option.none => Except.error (PyError.keyError (pyLower (pyStrip t)))) =
    Except.error (PyError.keyError (pyLower (pyStrip t)))
  have e1 : CompressionFormat.all.find? (fun f => pyLower (pyStrip t) == f.name) =
      Option.none := by
    rw [List.find?_eq_none]
    intro c _
    simpa using h1 c
  have e2 : CompressionFormat.all.find? (fun f => t == f.full_name) = Option.none := by
    rw [List.find?_eq_none]
    intro c _
    simpa using h2 c
  rw [e1, e2]

/-- C5 witness: the amended failure case applied at the token "bogus". -/
theorem C5_of_amended_witness :
    CompressionFormat.of "bogus" =
      Except.error (PyError.keyError (pyLower (pyStrip "bogus"))) :=
  C5_of_amended.2.2.2 "bogus" (by decide) (by decide)

/-- C4: `from_path` inspects only the path's filename; a filename of the
form ".<suffix>" with exactly one dot is matched whole, any other filename
is matched by its final extension; a suffix matched by no registered format
other than `none` yields `none` (and the function is total, so it never
raises); in particular "data.csv.gz" infers gz and "data.csv" infers none. -/
theorem C4_from_path_spec :
    (∀ pa pb n : String,
      CompressionFormat.from_path ⟨pa, n⟩ = CompressionFormat.from_path ⟨pb, n⟩) ∧
    (∀ pa n : String, (startsWithDot n.data && (n.data.count '.' == 1)) = true →
      CompressionFormat.from_path ⟨pa, n⟩ = CompressionFormat.from_suffix n) ∧
    (∀ pa n : String, (startsWithDot n.data && (n.data.count '.' == 1)) = false →
      CompressionFormat.from_path ⟨pa, n⟩ = CompressionFormat.from_suffix (pySuffix n)) ∧
    (∀ s : String, (∀ c : CompressionFormat, c ≠ CompressionFormat.none → s ≠ c.suffix) →
      CompressionFormat.from_suffix s = CompressionFormat.none) ∧
    CompressionFormat.from_path ⟨".", "data.csv.gz"⟩ = CompressionFormat.gz ∧
    CompressionFormat.from_path ⟨".", "data.csv"⟩ = CompressionFormat.none := by
  refine ⟨fun pa pb n => rfl, ?_, ?_, ?_, rfl, rfl⟩
  · intro pa n h
    unfold CompressionFormat.from_path
    rw [if_pos h]
  · intro pa n h
    unfold CompressionFormat.from_path
    rw [if_neg (by simp [h])]
  · intro s h
    by_cases hs : s = ""
    · subst hs
      rfl
    · have e : CompressionFormat.all.find? (fun c => s == c.suffix) = Option.none := by
        rw [List.find?_eq_none]
        intro c _
        by_cases hcn : c = CompressionFormat.none
        · subst hcn
          simpa [CompressionFormat.suffix] using hs
        · simpa using h c hcn
      unfold CompressionFormat.from_suffix
      rw [e]
      rfl

/-- C4 witness: the dotfile rule applied at ".gz" and the default case
applied at the unregistered suffix ".foo". -/
theorem C4_from_path_spec_witness :
    CompressionFormat.from_path ⟨".", ".gz"⟩ = CompressionFormat.from_suffix ".gz" ∧
    CompressionFormat.from_suffix ".foo" = CompressionFormat.none :=
  ⟨C4_from_path_spec.2.1 "." ".gz" (by decide),
   C4_from_path_spec.2.2.2.1 ".foo" (by decide)⟩

/-- C6: `strip_suffix` removes exactly the recognized compression suffix
when the filename ends with a registered non-empty suffix (keeping the
parent directory), returns the path unchanged when no registered non-empty
suffix matches, and in particular maps "data.csv.gz" to "data.csv". -/
theorem C6_strip_suffix_spec :
    (∀ (pa n : String) (c : CompressionFormat), c ∈ CompressionFormat.list_non_empty →
      c.suffix.data.isSuffixOf n.data = true →
      (CompressionFormat.strip_suffix ⟨pa, n⟩).parent = pa ∧
      (CompressionFormat.strip_suffix ⟨pa, n⟩).name.data ++ c.suffix.data = n.data) ∧
    (∀ pa n : String,
      (∀ c ∈ CompressionFormat.list_non_empty, c.suffix.data.isSuffixOf n.data = false) →
      CompressionFormat.strip_suffix ⟨pa, n⟩ = ⟨pa, n⟩) ∧
    CompressionFormat.strip_suffix ⟨".", "data.csv.gz"⟩ = ⟨".", "data.csv"⟩ := by
  refine ⟨?_, ?_, by decide⟩
  · intro pa n c hc he
    have hs : (CompressionFormat.list_non_empty.find?
        (fun d => d.suffix.data.isSuffixOf n.data)).isSome :=
      List.find?_isSome.mpr ⟨c, hc, he⟩
    obtain ⟨d, hd⟩ := Option.isSome_iff_exists.mp hs
    have hpd := List.find?_some hd
    have hdm : d ∈ CompressionFormat.list_non_empty := List.mem_of_find?_eq_some hd
    have hdc : d = c :=
      suffix_match_unique (non_empty_ne_none d hdm) (non_empty_ne_none c hc)
        (List.isSuffixOf_iff_suffix.mp hpd) (List.isSuffixOf_iff_suffix.mp he)
    subst hdc
    unfold CompressionFormat.strip_suffix
    rw [hd]
    refine ⟨rfl, ?_⟩
    show n.data.take (n.data.length - d.suffix.data.length) ++ d.suffix.data = n.data
    obtain ⟨t, ht⟩ := List.isSuffixOf_iff_suffix.mp he
    rw [← ht]
    simp
  · intro pa n h
    have e : CompressionFormat.list_non_empty.find?
        (fun c => c.suffix.data.isSuffixOf n.data) = Option.none := by
      rw [List.find?_eq_none]
      intro c hc
      simp [h c hc]
    unfold CompressionFormat.strip_suffix
    rw [e]

/-- C6 witness: the removal case applied at "x.zst" with the zstd format. -/
theorem C6_strip_suffix_spec_witness :
    (CompressionFormat.strip_suffix ⟨".", "x.zst"⟩).parent = "." ∧
    (CompressionFormat.strip_suffix ⟨".", "x.zst"⟩).name.data ++
      CompressionFormat.zstd.suffix.data = "x.zst".data :=
  C6_strip_suffix_spec.1 "." "x.zst" CompressionFormat.zstd (by decide) (by decide)

/-- C10: in `verify_can_read_files`, when the two permission checks pass
for a path but the `attempt=True` open of the path for reading fails, the
raised error is `WritePermissionsError` (source lines 228-233), not
`ReadPermissionsError`, even though the operation being checked is a read. -/
theorem C10_attempt_open_failure_is_write_error (fs : FS) (key : String) (missing_ok : Bool)
    (h1 : (pyExists fs key && !isFileAt fs key) = false)
    (h2 : ((!missing_ok || pyExists fs key) && !osAccessR fs key) = false)
    (h3 : openForReadOk fs key = false) :
    SmartIo.verify_can_read_files fs [key] missing_ok true =
      some (PyError.writePermissionsError ("Failed to open " ++ key ++ " for read") key) := by
  simp [SmartIo.verify_can_read_files, List.findSome?, SmartIo.verify_one_readable, h1, h2, h3]

/-- C10 witness: a missing path with missing_ok=true passes both permission
checks, and the attempted open then fails, raising WritePermissionsError. -/
theorem C10_attempt_open_failure_is_write_error_witness :
    SmartIo.verify_can_read_files [] ["p.txt"] true true =
      some (PyError.writePermissionsError ("Failed to open " ++ "p.txt" ++ " for read") "p.txt") :=
  C10_attempt_open_failure_is_write_error [] "p.txt" true (by decide) (by decide) (by decide)

/-- The concrete filesystem used for the C9 evidence: one existing regular
file that lacks read permission. -/
def fsUnreadable : FS := [("./f.txt", { content := "x", rOK := false })]

/-- C9 counterexample: reading an existing but unreadable file fails with
the builtin `PermissionError` propagated from `open` inside pandas
`get_handle` (the source's read path never raises, nor even mentions,
`ReadPermissionsError`; that class is only raised by the separate preflight
`verify_can_read_files`, which `read` does not call). -/
theorem C9_read_error_counterexample :
    SmartIo.read idCodecs fsUnreadable ⟨".", "f.txt"⟩ "r" Option.none =
      Except.error (PyError.osPermissionError "./f.txt") ∧
    isReadPermsError (SmartIo.read idCodecs fsUnreadable ⟨".", "f.txt"⟩ "r" Option.none) =
      false :=
  ⟨rfl, rfl⟩

/-- C9 amended: for every existing regular file that lacks read permission,
`read` fails with the builtin `PermissionError` raised when the file is
opened; it does not raise the library's `ReadPermissionsError`. -/
theorem C9_read_unreadable_raises_builtin_error (codecs : Codecs) (fs : FS) (path : SPath)
    (file : SFile) (hf : fsGet fs path.str = some file) (hreg : file.isFile = true)
    (hr : file.rOK = false) :
    SmartIo.read codecs fs path "r" Option.none =
      Except.error (PyError.osPermissionError path.str) := by
  unfold SmartIo.read SmartIo.path_or_buff_compression
  dsimp only
  by_cases hlz : CompressionFormat.from_path path = CompressionFormat.lz4
  · rw [if_pos hlz]
    unfold lz4FrameOpenRead
    rw [hf]
    simp [hreg, hr]
  · rw [if_neg hlz]
    unfold getHandleRead
    rw [pandasFormatOf_pandas_value _ hlz]
    dsimp only
    rw [hf]
    simp [hreg, hr]

/-- C9 witness: the amended statement applied at the concrete unreadable
file of `fsUnreadable`. -/
theorem C9_read_unreadable_raises_builtin_error_witness :
    SmartIo.read idCodecs fsUnreadable ⟨".", "f.txt"⟩ "r" Option.none =
      Except.error (PyError.osPermissionError (SPath.str ⟨".", "f.txt"⟩)) :=
  C9_read_unreadable_raises_builtin_error idCodecs fsUnreadable ⟨".", "f.txt"⟩
    { content := "x", rOK := false } rfl rfl rfl

/-- C7: whenever an append mode is combined with the lz4 scheme or with
atomic=true (and the compression argument itself resolves to a scheme),
`write` raises `UnsupportedOperationError` with the filesystem untouched:
no file is created or modified. -/
theorem C7_append_rejected (codecs : Codecs) (ioFail : Bool) (now : String) (fs : FS)
    (path : SPath) (content mode : String) (atomic : Bool) (kw : Option String)
    (c : CompressionFormat)
    (hc : SmartIo.path_or_buff_compression path kw = Except.ok c)
    (ha : strContainsChar mode 'a' = true)
    (hd : c = CompressionFormat.lz4 ∨ atomic = true) :
    ∃ msg, SmartIo.write codecs ioFail now fs path content mode atomic kw =
      (some (PyError.unsupportedOperationError msg), fs) := by
  unfold SmartIo.write
  rw [hc]
  dsimp only
  by_cases hlz : c = CompressionFormat.lz4
  · refine ⟨"Can't append to lz4 (yet)", ?_⟩
    rw [if_pos hlz, if_pos ha]
  · have hat : atomic = true := hd.resolve_left hlz
    subst hat
    refine ⟨"Can't append in atomic write", ?_⟩
    rw [if_neg hlz, if_pos rfl, if_pos ha]

/-- C7 witness: appending atomically to a gz path is rejected with the
filesystem unchanged. -/
theorem C7_append_rejected_witness :
    ∃ msg, SmartIo.write idCodecs false "t" [] ⟨".", "x.gz"⟩ "hi" "a" true Option.none =
      (some (PyError.unsupportedOperationError msg), []) :=
  C7_append_rejected idCodecs false "t" [] ⟨".", "x.gz"⟩ "hi" "a" true Option.none
    CompressionFormat.gz rfl (by decide) (Or.inr rfl)

/-- C1: code-bug evidence. With atomic=true (a resolvable non-lz4 scheme
and a non-append mode) `write` always raises
`ValueError("Unknown timespec value")` from `tmp_path` before opening or
writing any file, leaving the whole filesystem (in particular the
destination) unchanged: the claim's scenario of an I/O failure during the
temporary-file write is unreachable, and the temporary-write block
(source lines 324-326) contains no removal of the temporary file on
failure either. -/
theorem C1_atomic_write_raises_before_any_io (codecs : Codecs) (ioFail : Bool)
    (now : String) (fs : FS) (path : SPath) (content : String) (kw : Option String)
    (c : CompressionFormat)
    (hc : SmartIo.path_or_buff_compression path kw = Except.ok c)
    (hlz : c ≠ CompressionFormat.lz4) :
    SmartIo.write codecs ioFail now fs path content "w" true kw =
      (some (PyError.valueError "Unknown timespec value"), fs) := by
  unfold SmartIo.write
  rw [hc]
  dsimp only
  rw [if_neg hlz, if_pos rfl, if_neg (by decide), tmp_path_fails]

/-- C1 witness: an atomic write of plain text to "m.txt" fails with the
ValueError and leaves the empty filesystem empty. -/
theorem C1_atomic_write_raises_before_any_io_witness :
    SmartIo.write idCodecs false "t" [] ⟨".", "m.txt"⟩ "x" "w" true Option.none =
      (some (PyError.valueError "Unknown timespec value"), []) :=
  C1_atomic_write_raises_before_any_io idCodecs false "t" [] ⟨".", "m.txt"⟩ "x"
    Option.none CompressionFormat.none rfl (by decide)

/-- Writing a fresh file through a pandas handle and reading it back through
a handle with the same compression argument returns the original content,
provided the codec selected by that argument decodes what it encodes. -/
theorem getHandle_fresh_roundtrip (codecs : Codecs) (fs : FS) (key content : String)
    (cv : Option String) (fOpt : Option CompressionFormat)
    (hcv : pandasFormatOf cv = Except.ok fOpt)
    (hdec : decodeOpt codecs fOpt (encodeOpt codecs fOpt content) = some content)
    (hfresh : fsGet fs key = Option.none) :
    (getHandleWrite codecs false fs key cv "w" content).1 = Option.none ∧
    getHandleRead codecs (getHandleWrite codecs false fs key cv "w" content).2 key cv =
      Except.ok content := by
  have hw : getHandleWrite codecs false fs key cv "w" content =
      (Option.none, fsSet fs key { content := encodeOpt codecs fOpt content }) := by
    unfold getHandleWrite
    rw [hcv]
    dsimp only
    rw [hfresh]
    rfl
  rw [hw]
  refine ⟨rfl, ?_⟩
  unfold getHandleRead
  rw [hcv]
  dsimp only
  rw [fsGet_fsSet]
  simp [hdec]

/-- C2: code-bug evidence. Writing text to a fresh path and reading it back
returns the original text for every registered scheme other than lz4
(assuming the external codecs decode what they encode), but the round trip
is impossible for lz4: a write to an lz4 path always raises
`ValueError("Unknown timespec value")` from `tmp_path` and leaves the
filesystem unchanged, so nothing is ever written. -/
theorem C2_roundtrip_all_schemes_except_lz4 :
    (∀ (codecs : Codecs) (fs : FS) (path : SPath) (content now : String)
      (f : CompressionFormat),
      CompressionFormat.from_path path = f → f ≠ CompressionFormat.lz4 →
      (∀ (g : CompressionFormat) (s : String), codecs.dec g (codecs.enc g s) = some s) →
      fsGet fs path.str = Option.none →
      (SmartIo.write codecs false now fs path content "w" false Option.none).1 =
        Option.none ∧
      SmartIo.read codecs
        (SmartIo.write codecs false now fs path content "w" false Option.none).2
        path "r" Option.none = Except.ok content) ∧
    (∀ (codecs : Codecs) (fs : FS) (content now : String),
      SmartIo.write codecs false now fs ⟨".", "f.txt.lz4"⟩ content "w" false Option.none =
        (some (PyError.valueError "Unknown timespec value"), fs)) := by
  refine ⟨?_, fun codecs fs content now => rfl⟩
  intro codecs fs path content now f hf hlz hrt hfresh
  subst hf
  have hred : SmartIo.write codecs false now fs path content "w" false Option.none =
      getHandleWrite codecs false fs path.str
        (CompressionFormat.from_path path).pandas_value "w" content := by
    unfold SmartIo.write SmartIo.path_or_buff_compression
    dsimp only
    rw [if_neg hlz]
    rfl
  have hread : ∀ fs2 : FS, SmartIo.read codecs fs2 path "r" Option.none =
      getHandleRead codecs fs2 path.str (CompressionFormat.from_path path).pandas_value := by
    intro fs2
    unfold SmartIo.read SmartIo.path_or_buff_compression
    dsimp only
    rw [if_neg hlz]
  rw [hred, hread]
  refine getHandle_fresh_roundtrip codecs fs path.str content _ _
    (pandasFormatOf_pandas_value _ hlz) ?_ hfresh
  by_cases hn : CompressionFormat.from_path path = CompressionFormat.none <;>
    simp [hn, encodeOpt, decodeOpt, hrt]

/-- C2 witness: the round trip applied at a fresh gz path with the identity
codec family. -/
theorem C2_roundtrip_all_schemes_except_lz4_witness :
    (SmartIo.write idCodecs false "t" [] ⟨".", "a.csv.gz"⟩ "hello" "w" false Option.none).1 =
      Option.none ∧
    SmartIo.read idCodecs
      (SmartIo.write idCodecs false "t" [] ⟨".", "a.csv.gz"⟩ "hello" "w" false Option.none).2
      ⟨".", "a.csv.gz"⟩ "r" Option.none = Except.ok "hello" :=
  C2_roundtrip_all_schemes_except_lz4.1 idCodecs [] ⟨".", "a.csv.gz"⟩ "hello" "t"
    CompressionFormat.gz rfl (by decide) (fun g s => rfl) rfl
